import Mathlib

/-!
Verification of the UUID core (`containers/uuid.cc`).

Modelling conventions of the shallow embedding:
* a `uuid_t` is its 16-byte buffer, a `List Nat` of bytes (each `< 256`);
* a C string is the list of its character codes, a `List Nat`;
* the SHA-1 digest lives in OpenSSL, outside this translation unit, so
  the functions that use it take the digest as an explicit parameter
  (`sha1 : List Nat → List Nat`); everything proved about tagging and the
  counter holds for an arbitrary digest function;
* the thread-local counter `next_uuid` is passed and returned explicitly;
* the throwing overload of `str_to_uuid` returns an `Option`, `none`
  standing for the thrown `std::runtime_error`.
-/

/-- Constant `uuid_t::kStaticSize`: number of bytes in an identifier. -/
def kStaticSize : Nat := 16

/-- Constant `uuid_t::kStringSize`: length of the canonical string form. -/
def kStringSize : Nat := 36

/-- Bytes installed by the default constructor: the characters of the
string literal `"UNSET_UUID_____"` followed by its terminating NUL byte
(`memcpy(data_, magic_unset_uuid, kStaticSize)` copies the NUL as well). -/
def magic_unset_uuid : List Nat := "UNSET_UUID_____".toList.map Char.toNat ++ [0]

/-- Default construction `uuid_t::uuid_t()`: copy the magic pattern. -/
def uuid_default : List Nat := magic_unset_uuid

/-- Predicate `uuid_t::is_unset()`: `memcmp` of the buffer with the magic
pattern. -/
def is_unset (u : List Nat) : Bool := u == magic_unset_uuid

/-- Predicate `uuid_t::is_nil()`: every byte of the buffer is zero. -/
def is_nil (u : List Nat) : Bool := u.all (fun b => b == 0)

/-- Function `nil_uuid()`: `memset` of all 16 bytes to zero. -/
def nil_uuid : List Nat := List.replicate kStaticSize 0

/-- Carry loop of `get_and_increment_uuid`: increment the last byte
(`uint8_t` arithmetic, hence `% 256`); while the incremented byte wrapped to
zero, keep propagating the carry toward the first byte.  Returns the updated
buffer together with the carry out of the most significant byte. -/
def inc_be : List Nat → List Nat × Bool
  | [] => ([], true)
  | b :: rest =>
    match inc_be rest with
    | (rest2, true) =>
      let b2 := (b + 1) % 256
      (b2 :: rest2, b2 == 0)
    | (rest2, false) => (b :: rest2, false)

/-- Function `get_and_increment_uuid()`: copy the current `next_uuid` buffer
out as the result, then increment the stored buffer with full carry
propagation.  The thread-local state is explicit: the argument is the current
`next_uuid` and the second component of the result is the new `next_uuid`. -/
def get_and_increment_uuid (next_uuid : List Nat) : List Nat × List Nat :=
  (next_uuid, (inc_be next_uuid).fst)

/-- Function `hash_uuid()`: digest the 16-byte buffer (the digest itself is
OpenSSL's `SHA1`, passed here as the parameter `sha1`, producing the
`SHA_DIGEST_LENGTH = 20` byte `output_buffer`), force the version-4 bits in
bytes 6 and 8 of the digest, and copy its first `kStaticSize` bytes back. -/
def hash_uuid (sha1 : List Nat → List Nat) (uuid : List Nat) : List Nat :=
  let ob := sha1 uuid
  let ob := ob.set 6 ((ob.getD 6 0 &&& 0x0f) ||| 0x40)
  let ob := ob.set 8 ((ob.getD 8 0 &&& 0x3f) ||| 0x80)
  ob.take kStaticSize

/-- Function `generate_uuid()`: take-and-increment the counter, then hash the
copy.  Returns the generated identifier together with the new counter state
(the lazy `/dev/urandom` seeding fixes the initial state; here the current
state is the argument). -/
def generate_uuid (sha1 : List Nat → List Nat) (next_uuid : List Nat) :
    List Nat × List Nat :=
  let r := get_and_increment_uuid next_uuid
  (hash_uuid sha1 r.fst, r.snd)

/-- Lookup table `"0123456789abcdef"` of `push_hex`. -/
def hexTable : List Nat := "0123456789abcdef".toList.map Char.toNat

/-- Function `push_hex()`: append the two hex digits of one byte. -/
def push_hex (s : List Nat) (byte : Nat) : List Nat :=
  s ++ [hexTable.getD (byte >>> 4) 0, hexTable.getD (byte &&& 0x0f) 0]

/-- Function `uuid_to_str()`: hex-encode bytes 0–3, 4–5, 6–7, 8–9 and 10–15,
with a hyphen (code 45) after each of the first four groups. -/
def uuid_to_str (data : List Nat) : List Nat :=
  let s := [0, 1, 2, 3].foldl (fun s i => push_hex s (data.getD i 0)) []
  let s := s ++ [45]
  let s := [4, 5].foldl (fun s i => push_hex s (data.getD i 0)) s
  let s := s ++ [45]
  let s := [6, 7].foldl (fun s i => push_hex s (data.getD i 0)) s
  let s := s ++ [45]
  let s := [8, 9].foldl (fun s i => push_hex s (data.getD i 0)) s
  let s := s ++ [45]
  [10, 11, 12, 13, 14, 15].foldl (fun s i => push_hex s (data.getD i 0)) s

/-- ASCII `tolower`: map `'A'..'Z'` (codes 65–90) to `'a'..'z'`. -/
def tolower (ch : Nat) : Nat :=
  if 65 ≤ ch ∧ ch ≤ 90 then ch + 32 else ch

/-- Function `from_hexdigit()`: `isdigit` accepts `'0'..'9'` (codes 48–57);
otherwise `tolower` the character and accept `'a'..'f'` (codes 97–102). -/
def from_hexdigit (ch : Nat) : Option Nat :=
  if 48 ≤ ch ∧ ch ≤ 57 then
    some (ch - 48)
  else
    let c := tolower ch
    if 97 ≤ c ∧ c ≤ 102 then
      some (10 + (c - 97))
    else
      none

/-- Body of `str_to_uuid`'s `for`/`switch` loop, one call per byte index `i`;
the remaining byte indices are the first argument after `str`.  At
`i ∈ {4, 6, 8, 10}` the `switch` first demands a `'-'` (code 45) at position
`j` and consumes it, then falls through to the common case: decode two hex
characters and store their byte at `data[i]`.  Any failed test returns
`false` together with the buffer as mutated so far. -/
def str_to_uuid_loop (str : List Nat) :
    List Nat → Nat → List Nat → Bool × List Nat
  | [], _, data => (true, data)
  | i :: rest, j, data =>
    let sep : Bool := i == 4 || i == 6 || i == 8 || i == 10
    if sep && !(str.getD j 0 == 45) then
      (false, data)
    else
      let j := if sep then j + 1 else j
      match from_hexdigit (str.getD j 0) with
      | none => (false, data)
      | some high =>
        match from_hexdigit (str.getD (j + 1) 0) with
        | none => (false, data)
        | some low =>
          str_to_uuid_loop str rest (j + 2)
            (data.set i ((high <<< 4) ||| low))

/-- Byte indices `0 ≤ i < kStaticSize` walked by `str_to_uuid`'s loop. -/
def uuidIdx : List Nat := [0, 1, 2, 3, 4, 5, 6, 7, 8, 9, 10, 11, 12, 13, 14, 15]

/-- Overload `str_to_uuid(str, uuid)` (the `MUST_USE bool` one): reject any
string whose length is not `kStaticSize * 2 + 4`, else run the decoding loop.
The result pairs the returned `bool` with the final contents of `*uuid`. -/
def str_to_uuid (str : List Nat) (uuid : List Nat) : Bool × List Nat :=
  if str.length ≠ kStaticSize * 2 + 4 then
    (false, uuid)
  else
    str_to_uuid_loop str uuidIdx 0 uuid

/-- Overload `str_to_uuid(str)` (the throwing one): decode into a
default-constructed `uuid_t ret`; on failure throw `std::runtime_error`
(modelled as `none`). -/
def str_to_uuid_throw (str : List Nat) : Option (List Nat) :=
  let r := str_to_uuid str uuid_default
  if r.fst then some r.snd else none

/-- Function `is_uuid()`: try the throwing decode, converting any exception
to `false`. -/
def is_uuid (str : List Nat) : Bool :=
  match str_to_uuid_throw str with
  | some _ => true
  | none => false

/-! ## Specification-side definitions (from the spec's words) -/

/-- Character class of the spec's hex digits `0-9a-fA-F` (case-insensitive
on input). -/
def isHexChar (c : Nat) : Bool :=
  (48 ≤ c && c ≤ 57) || (97 ≤ c && c ≤ 102) || (65 ≤ c && c ≤ 70)

/-- Separator positions of the canonical form: after the 8th, 12th, 16th and
20th hex digit, i.e. string offsets 8, 13, 18 and 23. -/
def isSepPos (p : Nat) : Bool := p == 8 || p == 13 || p == 18 || p == 23

/-- Well-formedness condition on every position from `a` on: separator
positions hold `'-'` (code 45), all other positions hold a hex digit. -/
def tailOK (s : List Nat) (a : Nat) : Prop :=
  ∀ p, a ≤ p → p < 36 →
    (if isSepPos p then s.getD p 0 = 45 else isHexChar (s.getD p 0) = true)

/-- Spec-side well-formed canonical encoding: exactly 36 characters, hyphens
exactly at the four separator positions, hex digits everywhere else. -/
def wellFormedUuidStr (s : List Nat) : Prop :=
  s.length = 36 ∧ tailOK s 0

/-- Character class of the encoder's output alphabet: a lowercase hex
digit. -/
def isLowerHexChar (c : Nat) : Bool :=
  (48 ≤ c && c ≤ 57) || (97 ≤ c && c ≤ 102)

/-- Spec-side reading of a byte buffer as a big-endian unsigned integer. -/
def be_val : List Nat → Nat
  | [] => 0
  | b :: rest => b * 256 ^ rest.length + be_val rest

/-! ## Helper lemmas -/

set_option maxRecDepth 4096 in
theorem hex_digits_of_byte : ∀ b : Fin 256,
    from_hexdigit (hexTable[b.val >>> 4]?.getD 0) = some (b.val >>> 4) ∧
    from_hexdigit (hexTable[b.val &&& 0x0f]?.getD 0) = some (b.val &&& 0x0f) ∧
    ((b.val >>> 4) <<< 4) ||| (b.val &&& 0x0f) = b.val := by decide

theorem from_hexdigit_hi (b : Nat) (h : b < 256) :
    from_hexdigit (hexTable[b >>> 4]?.getD 0) = some (b >>> 4) :=
  (hex_digits_of_byte ⟨b, h⟩).1

theorem from_hexdigit_lo (b : Nat) (h : b < 256) :
    from_hexdigit (hexTable[b &&& 0x0f]?.getD 0) = some (b &&& 0x0f) :=
  (hex_digits_of_byte ⟨b, h⟩).2.1

theorem hex_reassemble (b : Nat) (h : b < 256) :
    ((b >>> 4) <<< 4) ||| (b &&& 0x0f) = b :=
  (hex_digits_of_byte ⟨b, h⟩).2.2

set_option maxRecDepth 4096 in
theorem lowerHex_digits_of_byte : ∀ b : Fin 256,
    isLowerHexChar (hexTable[b.val >>> 4]?.getD 0) = true ∧
    isLowerHexChar (hexTable[b.val &&& 0x0f]?.getD 0) = true := by decide

theorem lowerHex_hi (b : Nat) (h : b < 256) :
    isLowerHexChar (hexTable[b >>> 4]?.getD 0) = true :=
  (lowerHex_digits_of_byte ⟨b, h⟩).1

theorem lowerHex_lo (b : Nat) (h : b < 256) :
    isLowerHexChar (hexTable[b &&& 0x0f]?.getD 0) = true :=
  (lowerHex_digits_of_byte ⟨b, h⟩).2

theorem tag6 (d : Nat) : ((d &&& 0x0f) ||| 0x40) &&& 0xf0 = 0x40 := by
  have h : d &&& 0x0f < 16 := by
    have := Nat.and_le_right (n := d) (m := 0x0f)
    omega
  have key : ∀ a : Fin 16, ((a.val ||| 0x40) &&& 0xf0) = 0x40 := by decide
  exact key ⟨d &&& 0x0f, h⟩

theorem tag8 (d : Nat) : ((d &&& 0x3f) ||| 0x80) &&& 0xc0 = 0x80 := by
  have h : d &&& 0x3f < 64 := by
    have := Nat.and_le_right (n := d) (m := 0x3f)
    omega
  have key : ∀ a : Fin 64, ((a.val ||| 0x80) &&& 0xc0) = 0x80 := by decide
  exact key ⟨d &&& 0x3f, h⟩

theorem from_hexdigit_isSome (c : Nat) : (from_hexdigit c).isSome = isHexChar c := by
  simp only [from_hexdigit, tolower, isHexChar]
  repeat' split
  all_goals simp_all
  all_goals omega

theorem from_hexdigit_lt (c v : Nat) (h : from_hexdigit c = some v) : v < 16 := by
  simp only [from_hexdigit, tolower] at h
  repeat' split at h
  all_goals simp_all
  all_goals omega

theorem hex_pair_lt (h l : Nat) (hh : h < 16) (hl : l < 16) :
    ((h <<< 4) ||| l) < 256 := by
  have key : ∀ a b : Fin 16, ((a.val <<< 4) ||| b.val) < 256 := by decide
  exact key ⟨h, hh⟩ ⟨l, hl⟩

theorem tailOK_of_ge (s : List Nat) (a : Nat) (ha : 36 ≤ a) : tailOK s a := by
  intro p hp1 hp2
  exact absurd hp2 (by omega)

theorem tailOK_peel (s : List Nat) (a : Nat) (ha : a < 36) :
    tailOK s a ↔
      (if isSepPos a then s.getD a 0 = 45 else isHexChar (s.getD a 0) = true) ∧
        tailOK s (a + 1) := by
  constructor
  · intro h
    exact ⟨h a le_rfl ha, fun p hp1 hp2 => h p (by omega) hp2⟩
  · rintro ⟨h1, h2⟩ p hp1 hp2
    rcases Nat.eq_or_lt_of_le hp1 with rfl | hlt
    · exact h1
    · exact h2 p (by omega) hp2

theorem tailOK_peel_hex (s : List Nat) (a : Nat) (ha : a < 36)
    (hs : isSepPos a = false) :
    tailOK s a ↔ isHexChar (s.getD a 0) = true ∧ tailOK s (a + 1) := by
  rw [tailOK_peel s a ha, hs]
  simp only [Bool.false_eq_true, if_false]

theorem tailOK_peel_sep (s : List Nat) (a : Nat) (ha : a < 36)
    (hs : isSepPos a = true) :
    tailOK s a ↔ s.getD a 0 = 45 ∧ tailOK s (a + 1) := by
  rw [tailOK_peel s a ha, hs]
  simp only [if_true]

theorem step_nonsep (i : Nat) (rest : List Nat) (j jn : Nat)
    (hi : (i == 4 || i == 6 || i == 8 || i == 10) = false)
    (hjn : jn = j + 2) (hj : j + 1 < 36)
    (hs0 : isSepPos j = false) (hs1 : isSepPos (j + 1) = false)
    (IH : ∀ s d, (str_to_uuid_loop s rest jn d).fst = true ↔ tailOK s jn) :
    ∀ s d, (str_to_uuid_loop s (i :: rest) j d).fst = true ↔ tailOK s j := by
  subst hjn
  intro s d
  simp only [str_to_uuid_loop, hi, Bool.false_and, Bool.false_eq_true, if_false]
  rcases hh : from_hexdigit (s.getD j 0) with _ | high
  · simp only [Bool.false_eq_true, false_iff]
    intro h
    have h1 := ((tailOK_peel_hex s j (by omega) hs0).mp h).1
    rw [← from_hexdigit_isSome, hh] at h1
    exact absurd h1 (by decide)
  · rcases hl : from_hexdigit (s.getD (j + 1) 0) with _ | low
    · simp only [Bool.false_eq_true, false_iff]
      intro h
      have h1 := ((tailOK_peel_hex s (j + 1) (by omega) hs1).mp
        (((tailOK_peel_hex s j (by omega) hs0).mp h).2)).1
      rw [← from_hexdigit_isSome, hl] at h1
      exact absurd h1 (by decide)
    · have hx0 : isHexChar (s.getD j 0) = true := by
        rw [← from_hexdigit_isSome, hh]; rfl
      have hx1 : isHexChar (s.getD (j + 1) 0) = true := by
        rw [← from_hexdigit_isSome, hl]; rfl
      rw [IH s _]
      rw [tailOK_peel_hex s j (by omega) hs0, tailOK_peel_hex s (j + 1) (by omega) hs1]
      have e2 : j + 1 + 1 = j + 2 := by omega
      rw [e2, hx0, hx1]
      simp

theorem step_sep (i : Nat) (rest : List Nat) (j jn : Nat)
    (hi : (i == 4 || i == 6 || i == 8 || i == 10) = true)
    (hjn : jn = j + 3) (hj : j + 2 < 36)
    (hs0 : isSepPos j = true)
    (hs1 : isSepPos (j + 1) = false) (hs2 : isSepPos (j + 2) = false)
    (IH : ∀ s d, (str_to_uuid_loop s rest jn d).fst = true ↔ tailOK s jn) :
    ∀ s d, (str_to_uuid_loop s (i :: rest) j d).fst = true ↔ tailOK s j := by
  subst hjn
  intro s d
  simp only [str_to_uuid_loop, hi, Bool.true_and, if_true]
  by_cases hyph : s.getD j 0 = 45
  · rw [hyph]
    simp only [beq_self_eq_true, Bool.not_true, Bool.false_eq_true, if_false]
    rcases hh : from_hexdigit (s.getD (j + 1) 0) with _ | high
    · simp only [Bool.false_eq_true, false_iff]
      intro h
      have h1 := ((tailOK_peel_hex s (j + 1) (by omega) hs1).mp
        (((tailOK_peel_sep s j (by omega) hs0).mp h).2)).1
      rw [← from_hexdigit_isSome, hh] at h1
      exact absurd h1 (by decide)
    · rcases hl : from_hexdigit (s.getD (j + 1 + 1) 0) with _ | low
      · simp only [Bool.false_eq_true, false_iff]
        intro h
        have h1 := ((tailOK_peel_hex s (j + 2) (by omega) hs2).mp
          (((tailOK_peel_hex s (j + 1) (by omega) hs1).mp
            (((tailOK_peel_sep s j (by omega) hs0).mp h).2)).2)).1
        rw [← from_hexdigit_isSome, show j + 2 = j + 1 + 1 by omega, hl] at h1
        exact absurd h1 (by decide)
      · have hx1 : isHexChar (s.getD (j + 1) 0) = true := by
          rw [← from_hexdigit_isSome, hh]; rfl
        have hx2 : isHexChar (s.getD (j + 2) 0) = true := by
          rw [← from_hexdigit_isSome, show j + 2 = j + 1 + 1 by omega, hl]; rfl
        have e1 : j + 1 + 2 = j + 3 := by omega
        rw [e1, IH s _]
        rw [tailOK_peel_sep s j (by omega) hs0,
          tailOK_peel_hex s (j + 1) (by omega) hs1]
        have e2 : j + 1 + 1 = j + 2 := by omega
        rw [e2, tailOK_peel_hex s (j + 2) (by omega) hs2]
        have e3 : j + 2 + 1 = j + 3 := by omega
        rw [e3, hyph, hx1, hx2]
        simp
  · rw [if_pos]
    · simp only [Bool.false_eq_true, false_iff]
      intro h
      have h1 := ((tailOK_peel_sep s j (by omega) hs0).mp h).1
      exact absurd h1 hyph
    · simp only [Bool.not_eq_true', beq_eq_false_iff_ne]
      exact hyph

theorem str_to_uuid_loop_nil_iff (s : List Nat) (d : List Nat) :
    (str_to_uuid_loop s [] 36 d).fst = true ↔ tailOK s 36 := by
  simp only [str_to_uuid_loop, true_iff]
  exact tailOK_of_ge s 36 le_rfl

theorem str_to_uuid_loop_fst_iff (s d : List Nat) :
    (str_to_uuid_loop s uuidIdx 0 d).fst = true ↔ tailOK s 0 := by
  have h15 := step_nonsep 15 [] 34 36 (by decide) rfl (by omega)
    (by decide) (by decide) str_to_uuid_loop_nil_iff
  have h14 := step_nonsep 14 [15] 32 34 (by decide) rfl (by omega)
    (by decide) (by decide) h15
  have h13 := step_nonsep 13 [14, 15] 30 32 (by decide) rfl (by omega)
    (by decide) (by decide) h14
  have h12 := step_nonsep 12 [13, 14, 15] 28 30 (by decide) rfl (by omega)
    (by decide) (by decide) h13
  have h11 := step_nonsep 11 [12, 13, 14, 15] 26 28 (by decide) rfl (by omega)
    (by decide) (by decide) h12
  have h10 := step_sep 10 [11, 12, 13, 14, 15] 23 26 (by decide) rfl (by omega)
    (by decide) (by decide) (by decide) h11
  have h9 := step_nonsep 9 [10, 11, 12, 13, 14, 15] 21 23 (by decide) rfl (by omega)
    (by decide) (by decide) h10
  have h8 := step_sep 8 [9, 10, 11, 12, 13, 14, 15] 18 21 (by decide) rfl (by omega)
    (by decide) (by decide) (by decide) h9
  have h7 := step_nonsep 7 [8, 9, 10, 11, 12, 13, 14, 15] 16 18 (by decide) rfl
    (by omega) (by decide) (by decide) h8
  have h6 := step_sep 6 [7, 8, 9, 10, 11, 12, 13, 14, 15] 13 16 (by decide) rfl
    (by omega) (by decide) (by decide) (by decide) h7
  have h5 := step_nonsep 5 [6, 7, 8, 9, 10, 11, 12, 13, 14, 15] 11 13 (by decide) rfl
    (by omega) (by decide) (by decide) h6
  have h4 := step_sep 4 [5, 6, 7, 8, 9, 10, 11, 12, 13, 14, 15] 8 11 (by decide) rfl
    (by omega) (by decide) (by decide) (by decide) h5
  have h3 := step_nonsep 3 [4, 5, 6, 7, 8, 9, 10, 11, 12, 13, 14, 15] 6 8 (by decide)
    rfl (by omega) (by decide) (by decide) h4
  have h2 := step_nonsep 2 [3, 4, 5, 6, 7, 8, 9, 10, 11, 12, 13, 14, 15] 4 6
    (by decide) rfl (by omega) (by decide) (by decide) h3
  have h1 := step_nonsep 1 [2, 3, 4, 5, 6, 7, 8, 9, 10, 11, 12, 13, 14, 15] 2 4
    (by decide) rfl (by omega) (by decide) (by decide) h2
  have h0 := step_nonsep 0 [1, 2, 3, 4, 5, 6, 7, 8, 9, 10, 11, 12, 13, 14, 15] 0 2
    (by decide) rfl (by omega) (by decide) (by decide) h1
  exact h0 s d

theorem str_to_uuid_fst_iff (s u0 : List Nat) :
    (str_to_uuid s u0).fst = true ↔ wellFormedUuidStr s := by
  unfold str_to_uuid wellFormedUuidStr
  rw [show kStaticSize * 2 + 4 = 36 from rfl]
  by_cases hl : s.length = 36
  · rw [if_neg (by omega)]
    rw [str_to_uuid_loop_fst_iff s u0]
    simp [hl]
  · rw [if_pos (by omega)]
    simp only [Bool.false_eq_true, false_iff]
    intro hwf
    exact hl hwf.1

theorem str_to_uuid_loop_snd_length (idx : List Nat) :
    ∀ (s : List Nat) (j : Nat) (d : List Nat),
      (str_to_uuid_loop s idx j d).snd.length = d.length := by
  induction idx with
  | nil => intro s j d; rfl
  | cons i rest IH =>
    intro s j d
    simp only [str_to_uuid_loop]
    split
    · rfl
    · split
      · rfl
      · split
        · rfl
        · rw [IH, List.length_set]

theorem str_to_uuid_loop_snd_bytes (idx : List Nat) :
    ∀ (s : List Nat) (j : Nat) (d : List Nat),
      (∀ p, p < d.length → p ∉ idx → d.getD p 0 < 256) →
      (str_to_uuid_loop s idx j d).fst = true →
      ∀ p, p < (str_to_uuid_loop s idx j d).snd.length →
        (str_to_uuid_loop s idx j d).snd.getD p 0 < 256 := by
  induction idx with
  | nil =>
    intro s j d hd _ p hp
    exact hd p hp (by simp)
  | cons i rest IH =>
    intro s j d hd
    simp only [str_to_uuid_loop]
    split
    · intro hok
      exact absurd hok (by simp)
    · split
      · intro hok
        exact absurd hok (by simp)
      · split
        · intro hok
          exact absurd hok (by simp)
        · rename_i o1 high heq o2 low heq2
          intro hok p hp
          refine IH s _ _ ?_ hok p hp
          intro q hq hqr
          rw [List.length_set] at hq
          by_cases hqi : q = i
          · subst hqi
            rw [List.getD_eq_getElem?_getD,
              List.getElem?_set_eq_of_lt _ hq]
            simp only [Option.getD_some]
            exact hex_pair_lt _ _ (from_hexdigit_lt _ _ heq) (from_hexdigit_lt _ _ heq2)
          · rw [List.getD_eq_getElem?_getD,
              List.getElem?_set_ne (fun hctr => hqi hctr.symm),
              ← List.getD_eq_getElem?_getD]
            refine hd q hq ?_
            simp only [List.mem_cons, not_or]
            exact ⟨fun hctr => hqi hctr, hqr⟩

theorem uuid_to_str_explicit (b0 b1 b2 b3 b4 b5 b6 b7 b8 b9 b10 b11 b12 b13 b14 b15 : Nat) :
    uuid_to_str [b0, b1, b2, b3, b4, b5, b6, b7, b8, b9, b10, b11, b12, b13, b14, b15] =
    [hexTable[b0 >>> 4]?.getD 0,
      hexTable[b0 &&& 0x0f]?.getD 0,
      hexTable[b1 >>> 4]?.getD 0,
      hexTable[b1 &&& 0x0f]?.getD 0,
      hexTable[b2 >>> 4]?.getD 0,
      hexTable[b2 &&& 0x0f]?.getD 0,
      hexTable[b3 >>> 4]?.getD 0,
      hexTable[b3 &&& 0x0f]?.getD 0,
      45,
      hexTable[b4 >>> 4]?.getD 0,
      hexTable[b4 &&& 0x0f]?.getD 0,
      hexTable[b5 >>> 4]?.getD 0,
      hexTable[b5 &&& 0x0f]?.getD 0,
      45,
      hexTable[b6 >>> 4]?.getD 0,
      hexTable[b6 &&& 0x0f]?.getD 0,
      hexTable[b7 >>> 4]?.getD 0,
      hexTable[b7 &&& 0x0f]?.getD 0,
      45,
      hexTable[b8 >>> 4]?.getD 0,
      hexTable[b8 &&& 0x0f]?.getD 0,
      hexTable[b9 >>> 4]?.getD 0,
      hexTable[b9 &&& 0x0f]?.getD 0,
      45,
      hexTable[b10 >>> 4]?.getD 0,
      hexTable[b10 &&& 0x0f]?.getD 0,
      hexTable[b11 >>> 4]?.getD 0,
      hexTable[b11 &&& 0x0f]?.getD 0,
      hexTable[b12 >>> 4]?.getD 0,
      hexTable[b12 &&& 0x0f]?.getD 0,
      hexTable[b13 >>> 4]?.getD 0,
      hexTable[b13 &&& 0x0f]?.getD 0,
      hexTable[b14 >>> 4]?.getD 0,
      hexTable[b14 &&& 0x0f]?.getD 0,
      hexTable[b15 >>> 4]?.getD 0,
      hexTable[b15 &&& 0x0f]?.getD 0] := by
  simp [uuid_to_str, push_hex]

theorem uuid_to_str_shape (v : List Nat) (hv : v.length = 16)
    (hb : ∀ b ∈ v, b < 256) :
    (uuid_to_str v).length = 36 ∧
    ∀ p, p < 36 →
      (if isSepPos p then (uuid_to_str v).getD p 0 = 45
       else isLowerHexChar ((uuid_to_str v).getD p 0) = true) := by
  rcases v with _ | ⟨b0, v⟩
  · simp at hv
  rcases v with _ | ⟨b1, v⟩
  · simp at hv
  rcases v with _ | ⟨b2, v⟩
  · simp at hv
  rcases v with _ | ⟨b3, v⟩
  · simp at hv
  rcases v with _ | ⟨b4, v⟩
  · simp at hv
  rcases v with _ | ⟨b5, v⟩
  · simp at hv
  rcases v with _ | ⟨b6, v⟩
  · simp at hv
  rcases v with _ | ⟨b7, v⟩
  · simp at hv
  rcases v with _ | ⟨b8, v⟩
  · simp at hv
  rcases v with _ | ⟨b9, v⟩
  · simp at hv
  rcases v with _ | ⟨b10, v⟩
  · simp at hv
  rcases v with _ | ⟨b11, v⟩
  · simp at hv
  rcases v with _ | ⟨b12, v⟩
  · simp at hv
  rcases v with _ | ⟨b13, v⟩
  · simp at hv
  rcases v with _ | ⟨b14, v⟩
  · simp at hv
  rcases v with _ | ⟨b15, v⟩
  · simp at hv
  rcases v with _ | ⟨b16, v⟩
  case cons => simp at hv
  have h0 : b0 < 256 := hb _ (by simp)
  have h1 : b1 < 256 := hb _ (by simp)
  have h2 : b2 < 256 := hb _ (by simp)
  have h3 : b3 < 256 := hb _ (by simp)
  have h4 : b4 < 256 := hb _ (by simp)
  have h5 : b5 < 256 := hb _ (by simp)
  have h6 : b6 < 256 := hb _ (by simp)
  have h7 : b7 < 256 := hb _ (by simp)
  have h8 : b8 < 256 := hb _ (by simp)
  have h9 : b9 < 256 := hb _ (by simp)
  have h10 : b10 < 256 := hb _ (by simp)
  have h11 : b11 < 256 := hb _ (by simp)
  have h12 : b12 < 256 := hb _ (by simp)
  have h13 : b13 < 256 := hb _ (by simp)
  have h14 : b14 < 256 := hb _ (by simp)
  have h15 : b15 < 256 := hb _ (by simp)
  rw [uuid_to_str_explicit]
  refine ⟨by simp, ?_⟩
  intro p hp
  interval_cases p <;>
    simp [isSepPos, lowerHex_hi b0 h0, lowerHex_lo b0 h0, lowerHex_hi b1 h1, lowerHex_lo b1 h1, lowerHex_hi b2 h2, lowerHex_lo b2 h2, lowerHex_hi b3 h3, lowerHex_lo b3 h3, lowerHex_hi b4 h4, lowerHex_lo b4 h4, lowerHex_hi b5 h5, lowerHex_lo b5 h5, lowerHex_hi b6 h6, lowerHex_lo b6 h6, lowerHex_hi b7 h7, lowerHex_lo b7 h7, lowerHex_hi b8 h8, lowerHex_lo b8 h8, lowerHex_hi b9 h9, lowerHex_lo b9 h9, lowerHex_hi b10 h10, lowerHex_lo b10 h10, lowerHex_hi b11 h11, lowerHex_lo b11 h11, lowerHex_hi b12 h12, lowerHex_lo b12 h12, lowerHex_hi b13 h13, lowerHex_lo b13 h13, lowerHex_hi b14 h14, lowerHex_lo b14 h14, lowerHex_hi b15 h15, lowerHex_lo b15 h15]

theorem be_val_lt (l : List Nat) (h : ∀ b ∈ l, b < 256) :
    be_val l < 256 ^ l.length := by
  induction l with
  | nil => simp [be_val]
  | cons b rest IH =>
    have hb : b < 256 := h b (by simp)
    have hrest := IH (fun x hx => h x (by simp [hx]))
    simp only [be_val, List.length_cons]
    have h1 : b * 256 ^ rest.length ≤ 255 * 256 ^ rest.length :=
      Nat.mul_le_mul_right _ (by omega)
    have h2 : (256 : Nat) ^ (rest.length + 1) = 256 * 256 ^ rest.length := by
      rw [pow_succ]; ring
    omega

theorem inc_be_spec (l : List Nat) (h : ∀ b ∈ l, b < 256) :
    (inc_be l).fst.length = l.length ∧
    ((inc_be l).snd = true ↔ be_val l + 1 = 256 ^ l.length) ∧
    be_val (inc_be l).fst = (be_val l + 1) % 256 ^ l.length := by
  induction l with
  | nil =>
    refine ⟨rfl, by simp [inc_be, be_val], by simp [inc_be, be_val]⟩
  | cons b rest IH =>
    have hb : b < 256 := h b (by simp)
    have hrest : ∀ x ∈ rest, x < 256 := fun x hx => h x (by simp [hx])
    obtain ⟨IH1, IH2, IH3⟩ := IH hrest
    have hlt := be_val_lt rest hrest
    have hpow : (256 : Nat) ^ (rest.length + 1) = 256 * 256 ^ rest.length := by
      rw [pow_succ]; ring
    have hpos : 0 < (256 : Nat) ^ rest.length := Nat.pos_pow_of_pos _ (by omega)
    rcases hc : (inc_be rest) with ⟨rest2, c⟩
    rw [hc] at IH1 IH2 IH3
    simp only [inc_be, hc]
    cases c with
    | false =>
      simp only [Bool.false_eq_true, false_iff] at IH2
      have hne : be_val rest + 1 ≠ 256 ^ rest.length := IH2
      have hv2 : be_val rest2 = be_val rest + 1 := by
        rw [IH3, Nat.mod_eq_of_lt (by omega)]
      refine ⟨by simp [IH1], ?_, ?_⟩
      · simp only [Bool.false_eq_true, false_iff]
        intro hctr
        simp only [be_val, List.length_cons] at hctr
        have h1 : b * 256 ^ rest.length ≤ 255 * 256 ^ rest.length :=
          Nat.mul_le_mul_right _ (by omega)
        omega
      · simp only [be_val, IH1, List.length_cons]
        rw [hv2]
        have h1 : b * 256 ^ rest.length ≤ 255 * 256 ^ rest.length :=
          Nat.mul_le_mul_right _ (by omega)
        rw [Nat.mod_eq_of_lt (by omega)]
        omega
    | true =>
      simp only [true_iff] at IH2
      have hwrap : be_val rest + 1 = 256 ^ rest.length := IH2
      have hv2 : be_val rest2 = 0 := by
        rw [IH3, hwrap, Nat.mod_self]
      simp only
      constructor
      · simp [IH1]
      constructor
      · constructor
        · intro hz
          simp only [beq_iff_eq] at hz
          have hb255 : b = 255 := by omega
          subst hb255
          simp only [be_val, List.length_cons]
          rw [hpow]
          omega
        · intro heq
          simp only [be_val, List.length_cons] at heq
          simp only [beq_iff_eq]
          rw [hpow] at heq
          have h1 : b * 256 ^ rest.length + 256 ^ rest.length =
              (b + 1) * 256 ^ rest.length := by ring
          have h2 : (b + 1) * 256 ^ rest.length = 256 * 256 ^ rest.length := by omega
          have h3 : b + 1 = 256 := Nat.eq_of_mul_eq_mul_right hpos h2
          omega
      · simp only [be_val, IH1, List.length_cons]
        rw [hv2, hpow]
        have h1 : b * 256 ^ rest.length + be_val rest + 1 =
            (b + 1) * 256 ^ rest.length := by
          rw [← hwrap]; ring
        calc ((b + 1) % 256) * 256 ^ rest.length + 0
            = ((b + 1) % 256) * 256 ^ rest.length := by omega
          _ = ((b + 1) * 256 ^ rest.length) % (256 * 256 ^ rest.length) := by
              rw [Nat.mul_mod_mul_right]
          _ = (b * 256 ^ rest.length + be_val rest + 1) % (256 * 256 ^ rest.length) := by
              rw [h1]

/-! ## Claim theorems -/

/-- C1: for every 16-byte identifier value `v` (and any initial contents of
the output buffer), decoding the canonical encoding succeeds and returns
exactly `v`: `str_to_uuid (uuid_to_str v)` returns `true` and writes `v`. -/
theorem uuid_roundtrip (v u0 : List Nat) (hv : v.length = 16)
    (hb : ∀ b ∈ v, b < 256) (hu : u0.length = 16) :
    str_to_uuid (uuid_to_str v) u0 = (true, v) := by
  rcases v with _ | ⟨b0, v⟩
  · simp at hv
  rcases v with _ | ⟨b1, v⟩
  · simp at hv
  rcases v with _ | ⟨b2, v⟩
  · simp at hv
  rcases v with _ | ⟨b3, v⟩
  · simp at hv
  rcases v with _ | ⟨b4, v⟩
  · simp at hv
  rcases v with _ | ⟨b5, v⟩
  · simp at hv
  rcases v with _ | ⟨b6, v⟩
  · simp at hv
  rcases v with _ | ⟨b7, v⟩
  · simp at hv
  rcases v with _ | ⟨b8, v⟩
  · simp at hv
  rcases v with _ | ⟨b9, v⟩
  · simp at hv
  rcases v with _ | ⟨b10, v⟩
  · simp at hv
  rcases v with _ | ⟨b11, v⟩
  · simp at hv
  rcases v with _ | ⟨b12, v⟩
  · simp at hv
  rcases v with _ | ⟨b13, v⟩
  · simp at hv
  rcases v with _ | ⟨b14, v⟩
  · simp at hv
  rcases v with _ | ⟨b15, v⟩
  · simp at hv
  rcases v with _ | ⟨b16, v⟩
  case cons => simp at hv
  have h0 : b0 < 256 := hb _ (by simp)
  have h1 : b1 < 256 := hb _ (by simp)
  have h2 : b2 < 256 := hb _ (by simp)
  have h3 : b3 < 256 := hb _ (by simp)
  have h4 : b4 < 256 := hb _ (by simp)
  have h5 : b5 < 256 := hb _ (by simp)
  have h6 : b6 < 256 := hb _ (by simp)
  have h7 : b7 < 256 := hb _ (by simp)
  have h8 : b8 < 256 := hb _ (by simp)
  have h9 : b9 < 256 := hb _ (by simp)
  have h10 : b10 < 256 := hb _ (by simp)
  have h11 : b11 < 256 := hb _ (by simp)
  have h12 : b12 < 256 := hb _ (by simp)
  have h13 : b13 < 256 := hb _ (by simp)
  have h14 : b14 < 256 := hb _ (by simp)
  have h15 : b15 < 256 := hb _ (by simp)
  rcases u0 with _ | ⟨c0, u0⟩
  · simp at hu
  rcases u0 with _ | ⟨c1, u0⟩
  · simp at hu
  rcases u0 with _ | ⟨c2, u0⟩
  · simp at hu
  rcases u0 with _ | ⟨c3, u0⟩
  · simp at hu
  rcases u0 with _ | ⟨c4, u0⟩
  · simp at hu
  rcases u0 with _ | ⟨c5, u0⟩
  · simp at hu
  rcases u0 with _ | ⟨c6, u0⟩
  · simp at hu
  rcases u0 with _ | ⟨c7, u0⟩
  · simp at hu
  rcases u0 with _ | ⟨c8, u0⟩
  · simp at hu
  rcases u0 with _ | ⟨c9, u0⟩
  · simp at hu
  rcases u0 with _ | ⟨c10, u0⟩
  · simp at hu
  rcases u0 with _ | ⟨c11, u0⟩
  · simp at hu
  rcases u0 with _ | ⟨c12, u0⟩
  · simp at hu
  rcases u0 with _ | ⟨c13, u0⟩
  · simp at hu
  rcases u0 with _ | ⟨c14, u0⟩
  · simp at hu
  rcases u0 with _ | ⟨c15, u0⟩
  · simp at hu
  rcases u0 with _ | ⟨c16, u0⟩
  case cons => simp at hu
  simp [str_to_uuid, uuid_to_str, push_hex, str_to_uuid_loop, uuidIdx, kStaticSize,
    from_hexdigit_hi b0 h0, from_hexdigit_lo b0 h0, hex_reassemble b0 h0,
    from_hexdigit_hi b1 h1, from_hexdigit_lo b1 h1, hex_reassemble b1 h1,
    from_hexdigit_hi b2 h2, from_hexdigit_lo b2 h2, hex_reassemble b2 h2,
    from_hexdigit_hi b3 h3, from_hexdigit_lo b3 h3, hex_reassemble b3 h3,
    from_hexdigit_hi b4 h4, from_hexdigit_lo b4 h4, hex_reassemble b4 h4,
    from_hexdigit_hi b5 h5, from_hexdigit_lo b5 h5, hex_reassemble b5 h5,
    from_hexdigit_hi b6 h6, from_hexdigit_lo b6 h6, hex_reassemble b6 h6,
    from_hexdigit_hi b7 h7, from_hexdigit_lo b7 h7, hex_reassemble b7 h7,
    from_hexdigit_hi b8 h8, from_hexdigit_lo b8 h8, hex_reassemble b8 h8,
    from_hexdigit_hi b9 h9, from_hexdigit_lo b9 h9, hex_reassemble b9 h9,
    from_hexdigit_hi b10 h10, from_hexdigit_lo b10 h10, hex_reassemble b10 h10,
    from_hexdigit_hi b11 h11, from_hexdigit_lo b11 h11, hex_reassemble b11 h11,
    from_hexdigit_hi b12 h12, from_hexdigit_lo b12 h12, hex_reassemble b12 h12,
    from_hexdigit_hi b13 h13, from_hexdigit_lo b13 h13, hex_reassemble b13 h13,
    from_hexdigit_hi b14 h14, from_hexdigit_lo b14 h14, hex_reassemble b14 h14,
    from_hexdigit_hi b15 h15, from_hexdigit_lo b15 h15, hex_reassemble b15 h15]

/-- Witness for C1: the round trip at the concrete identifier whose bytes are
`0, 17, 34, …, 255`, decoded over a default-constructed output buffer. -/
theorem uuid_roundtrip_witness :
    (([0, 17, 34, 51, 68, 85, 102, 119, 136, 153, 170, 187, 204, 221, 238, 255] :
        List Nat).length = 16 ∧
      (∀ b ∈ ([0, 17, 34, 51, 68, 85, 102, 119, 136, 153, 170, 187, 204, 221, 238,
        255] : List Nat), b < 256) ∧
      uuid_default.length = 16) ∧
    str_to_uuid
      (uuid_to_str [0, 17, 34, 51, 68, 85, 102, 119, 136, 153, 170, 187, 204, 221,
        238, 255]) uuid_default =
      (true, [0, 17, 34, 51, 68, 85, 102, 119, 136, 153, 170, 187, 204, 221, 238,
        255]) :=
  ⟨⟨by decide, by decide, by decide⟩,
    uuid_roundtrip _ uuid_default (by decide) (by decide) (by decide)⟩

/-- C3: every identifier returned by `generate_uuid` — for any digest
function producing the 20-byte `SHA_DIGEST_LENGTH` output and any counter
state — has the top nibble of byte 6 equal to `0100` (`byte6 &&& 0xf0 =
0x40`) and the top two bits of byte 8 equal to `10` (`byte8 &&& 0xc0 =
0x80`). -/
theorem generate_uuid_version_bits (sha1 : List Nat → List Nat)
    (next_uuid : List Nat) (hlen : (sha1 next_uuid).length = 20) :
    ((generate_uuid sha1 next_uuid).fst.getD 6 0) &&& 0xf0 = 0x40 ∧
    ((generate_uuid sha1 next_uuid).fst.getD 8 0) &&& 0xc0 = 0x80 := by
  simp only [generate_uuid, get_and_increment_uuid, hash_uuid, kStaticSize]
  constructor
  · rw [List.getD_eq_getElem?_getD, List.getElem?_take_of_lt (by omega),
      List.getElem?_set_ne (by omega),
      List.getElem?_set_eq_of_lt _ (by omega)]
    simp only [Option.getD_some]
    exact tag6 _
  · rw [List.getD_eq_getElem?_getD, List.getElem?_take_of_lt (by omega),
      List.getElem?_set_eq_of_lt _ (by rw [List.length_set]; omega)]
    simp only [Option.getD_some]
    exact tag8 _

/-- Witness for C3: the version bits at a concrete digest function (constant
20-byte output) and a concrete zero counter. -/
theorem generate_uuid_version_bits_witness :
    (((fun _ : List Nat => List.replicate 20 7) (List.replicate 16 0)).length = 20) ∧
    ((generate_uuid (fun _ => List.replicate 20 7)
        (List.replicate 16 0)).fst.getD 6 0) &&& 0xf0 = 0x40 ∧
    ((generate_uuid (fun _ => List.replicate 20 7)
        (List.replicate 16 0)).fst.getD 8 0) &&& 0xc0 = 0x80 :=
  ⟨by decide,
    generate_uuid_version_bits (fun _ => List.replicate 20 7)
      (List.replicate 16 0) (by decide)⟩

/-- C4: for every string `s` (and any initial output buffer), `str_to_uuid`
returns `false` exactly when `s` is not a well-formed canonical encoding —
length exactly 36, hyphens at the four separator positions (offsets 8, 13,
18, 23, i.e. after the 8th, 12th, 16th and 20th hex digit), and a character
in `0-9a-fA-F` (uppercase accepted) at every other position.  The function
is total, so failure is a recoverable `false`, never a crash. -/
theorem str_to_uuid_false_iff_malformed (s u0 : List Nat) :
    (str_to_uuid s u0).fst = false ↔ ¬ wellFormedUuidStr s := by
  rw [← str_to_uuid_fst_iff s u0]
  cases h : (str_to_uuid s u0).fst <;> simp

/-- C5: `is_uuid` returns `true` exactly when the non-throwing decode
(into any output buffer) returns `true`; the parse failure inside the
throwing overload is converted to the boolean `false` and never escapes
`is_uuid`, which is a total boolean function. -/
theorem is_uuid_iff_str_to_uuid (s u0 : List Nat) :
    is_uuid s = true ↔ (str_to_uuid s u0).fst = true := by
  have h1 := str_to_uuid_fst_iff s u0
  have h2 := str_to_uuid_fst_iff s uuid_default
  unfold is_uuid str_to_uuid_throw
  rcases hb : (str_to_uuid s uuid_default).fst with _ | _
  · rw [hb] at h2
    simp only [hb, Bool.false_eq_true, if_false]
    rw [h1, ← h2]
    simp
  · rw [hb] at h2
    simp only [hb, if_true]
    rw [h1, ← h2]
    simp

/-- C6: for every 16-byte value, `uuid_to_str` yields a 36-character string
whose four separator positions hold `'-'` and whose other 32 positions hold
lowercase hexadecimal digits (the 8-4-4-4-12 grouping: hyphens after byte
indices 4, 6, 8, 10); in particular the encoding of 16 zero bytes is
`"00000000-0000-0000-0000-000000000000"`. -/
theorem uuid_to_str_canonical_form (v : List Nat) (hv : v.length = 16)
    (hb : ∀ b ∈ v, b < 256) :
    (uuid_to_str v).length = 36 ∧
    (∀ p, p < 36 →
      (if isSepPos p then (uuid_to_str v).getD p 0 = 45
       else isLowerHexChar ((uuid_to_str v).getD p 0) = true)) ∧
    uuid_to_str nil_uuid = "00000000-0000-0000-0000-000000000000".toList.map Char.toNat := by
  obtain ⟨hlen, hpos⟩ := uuid_to_str_shape v hv hb
  exact ⟨hlen, hpos, by decide⟩

/-- Witness for C6: the canonical shape at the concrete identifier with
bytes `1..16`. -/
theorem uuid_to_str_canonical_form_witness :
    (([1, 2, 3, 4, 5, 6, 7, 8, 9, 10, 11, 12, 13, 14, 15, 16] : List Nat).length = 16 ∧
      (∀ b ∈ ([1, 2, 3, 4, 5, 6, 7, 8, 9, 10, 11, 12, 13, 14, 15, 16] : List Nat),
        b < 256)) ∧
    (uuid_to_str [1, 2, 3, 4, 5, 6, 7, 8, 9, 10, 11, 12, 13, 14, 15, 16]).length = 36 ∧
    (∀ p, p < 36 →
      (if isSepPos p then
        (uuid_to_str [1, 2, 3, 4, 5, 6, 7, 8, 9, 10, 11, 12, 13, 14, 15, 16]).getD p 0 = 45
       else isLowerHexChar
        ((uuid_to_str [1, 2, 3, 4, 5, 6, 7, 8, 9, 10, 11, 12, 13, 14, 15, 16]).getD p 0) =
          true)) ∧
    uuid_to_str nil_uuid = "00000000-0000-0000-0000-000000000000".toList.map Char.toNat :=
  ⟨⟨by decide, by decide⟩,
    uuid_to_str_canonical_form _ (by decide) (by decide)⟩

/-- C7: when the 16-byte counter holds all `0xFF` bytes the increment wraps
the whole counter to all zero bytes without any error, and in general the
increment performed by `get_and_increment_uuid` acts as `+1` modulo `2^128`
on the counter read as a big-endian unsigned integer, with carry propagating
from the last byte toward the first. -/
theorem get_and_increment_wraps :
    (get_and_increment_uuid (List.replicate 16 255)).snd = List.replicate 16 0 ∧
    ∀ next_uuid : List Nat, next_uuid.length = 16 → (∀ b ∈ next_uuid, b < 256) →
      be_val (get_and_increment_uuid next_uuid).snd =
        (be_val next_uuid + 1) % 2 ^ 128 := by
  constructor
  · decide
  · intro next hlen hb
    have hspec := (inc_be_spec next hb).2.2
    simp only [get_and_increment_uuid]
    rw [hspec, hlen]
    norm_num

/-- Witness for C7: the modular increment law at the all-`0xFF` counter. -/
theorem get_and_increment_wraps_witness :
    ((List.replicate 16 255 : List Nat).length = 16 ∧
      (∀ b ∈ (List.replicate 16 255 : List Nat), b < 256)) ∧
    be_val (get_and_increment_uuid (List.replicate 16 255)).snd =
      (be_val (List.replicate 16 255) + 1) % 2 ^ 128 :=
  ⟨⟨by decide, by decide⟩,
    get_and_increment_wraps.2 (List.replicate 16 255) (by decide) (by decide)⟩

/-- C8: `nil_uuid` satisfies `is_nil`; a default-constructed identifier
satisfies `is_unset` and not `is_nil`; the unset sentinel is a fixed 16-byte
pattern distinct from the all-zero nil value. -/
theorem nil_and_unset_values :
    is_nil nil_uuid = true ∧
    is_unset uuid_default = true ∧
    is_nil uuid_default = false ∧
    uuid_default.length = 16 ∧
    uuid_default ≠ List.replicate 16 0 := by decide

/-- C9: whenever the non-throwing decode accepts a string — here one whose
hex digits are all uppercase — re-encoding the decoded value yields only
hyphens and lowercase hex digits, and `from_hexdigit` maps each of
`'A'..'F'` (codes 65–70) to the same value as its lowercase counterpart. -/
theorem str_to_uuid_reencode_lowercase (s u0 : List Nat) (hu : u0.length = 16)
    (hok : (str_to_uuid s u0).fst = true) :
    (∀ p, p < 36 →
      (if isSepPos p then (uuid_to_str (str_to_uuid s u0).snd).getD p 0 = 45
       else isLowerHexChar ((uuid_to_str (str_to_uuid s u0).snd).getD p 0) = true)) ∧
    (∀ c, 65 ≤ c → c ≤ 70 → from_hexdigit c = from_hexdigit (c + 32)) := by
  constructor
  · have hlen36 : s.length = 36 := ((str_to_uuid_fst_iff s u0).mp hok).1
    have hunfold : str_to_uuid s u0 = str_to_uuid_loop s uuidIdx 0 u0 := by
      unfold str_to_uuid
      rw [show kStaticSize * 2 + 4 = 36 from rfl, if_neg (by omega)]
    rw [hunfold] at hok ⊢
    have hL : (str_to_uuid_loop s uuidIdx 0 u0).snd.length = 16 := by
      rw [str_to_uuid_loop_snd_length]
      exact hu
    have hB : ∀ b ∈ (str_to_uuid_loop s uuidIdx 0 u0).snd, b < 256 := by
      intro b hbmem
      obtain ⟨p, hp, rfl⟩ := List.mem_iff_getElem.mp hbmem
      have hgd : (str_to_uuid_loop s uuidIdx 0 u0).snd.getD p 0 =
          (str_to_uuid_loop s uuidIdx 0 u0).snd[p] := List.getD_eq_getElem _ _ hp
      rw [← hgd]
      refine str_to_uuid_loop_snd_bytes uuidIdx s 0 u0 ?_ hok p hp
      intro q hq hqmem
      exfalso
      apply hqmem
      rw [hu] at hq
      unfold uuidIdx
      interval_cases q <;> simp
    exact (uuid_to_str_shape _ hL hB).2
  · intro c hc1 hc2
    interval_cases c <;> decide

/-- Witness for C9: re-encoding after decoding the all-uppercase input
`"FFFFFFFF-0000-0000-0000-000000000000"`. -/
theorem str_to_uuid_reencode_lowercase_witness :
    (uuid_default.length = 16 ∧
      (str_to_uuid ("FFFFFFFF-0000-0000-0000-000000000000".toList.map Char.toNat)
        uuid_default).fst = true) ∧
    (∀ p, p < 36 →
      (if isSepPos p then
        (uuid_to_str (str_to_uuid
          ("FFFFFFFF-0000-0000-0000-000000000000".toList.map Char.toNat)
          uuid_default).snd).getD p 0 = 45
       else isLowerHexChar ((uuid_to_str (str_to_uuid
          ("FFFFFFFF-0000-0000-0000-000000000000".toList.map Char.toNat)
          uuid_default).snd).getD p 0) = true)) ∧
    (∀ c, 65 ≤ c → c ≤ 70 → from_hexdigit c = from_hexdigit (c + 32)) :=
  ⟨⟨by decide, by decide⟩,
    str_to_uuid_reencode_lowercase
      ("FFFFFFFF-0000-0000-0000-000000000000".toList.map Char.toNat)
      uuid_default (by decide) (by decide)⟩

/-- C10: parse failure is not atomic in the output buffer: on the invalid
36-character input `"ffffffff-ffff-ffff-ffff-fffffffffffg"` (valid hex until
the final character), `str_to_uuid` returns `false` yet has already
overwritten the first 15 bytes of the caller's identifier with the decoded
values `0xff`, leaving only the last byte of the default-constructed buffer
intact, so the buffer no longer equals its initial contents. -/
theorem str_to_uuid_partial_write_on_failure :
    (str_to_uuid ("ffffffff-ffff-ffff-ffff-fffffffffffg".toList.map Char.toNat)
      uuid_default).fst = false ∧
    (str_to_uuid ("ffffffff-ffff-ffff-ffff-fffffffffffg".toList.map Char.toNat)
      uuid_default).snd = List.replicate 15 255 ++ [0] ∧
    (str_to_uuid ("ffffffff-ffff-ffff-ffff-fffffffffffg".toList.map Char.toNat)
      uuid_default).snd ≠ uuid_default := by decide
